import Mathlib

/-!
Verification of the transcripts-connector matching engine and attachment
pipeline (`src/orchestrator.py`, `src/ai_mapper.py`, `src/google_api.py`,
`src/providers/base.py`) against its natural-language specification.

Modelling conventions:
* Python strings are Lean `String`s; `s.lower()` is `pyLower`,
  `s.strip()` is `pyStrip`, `s.replace(a, b)` is `pyReplace`, `a in b`
  (substring) is `pyIn`, `s.startswith(p)` is `pyStartswith p s` (all
  defined by structural recursion on the character list so that concrete
  runs reduce in the kernel; `pyLower` is ASCII lowercasing, matching
  `str.lower()` on the ASCII data this repository handles).
* A Python value that may be absent (`dict.get` returning `None`) is an
  `Option`; Python truthiness of an optional string (`if not s`) is
  `pyStrOpt` (absent and empty both falsy).
* `datetime` values are POSIX seconds as `Int`; `datetime.fromisoformat`
  is modelled by `fromisoformat` on the grammar
  `YYYY-MM-DD[T ]HH:MM[:SS][±HH:MM]` (the shapes this repository feeds it);
  an input outside the grammar yields `none`, modelling Python raising
  `ValueError`.
* Code that can raise is modelled with `Except String`; external services
  (tldv connector, Google APIs, the litellm completion call) are function
  parameters so that theorems quantify over their behaviour.
-/

/-- Test whether `n` occurs as a contiguous run in a character list. -/
def listInfixB (n : List Char) : List Char → Bool
  | [] => n.isEmpty
  | c :: t => n.isPrefixOf (c :: t) || listInfixB n t

/-- Python `needle in hay` substring test. -/
def pyIn (needle hay : String) : Bool :=
  listInfixB needle.data hay.data

/-- Python `s.lower()` (ASCII). -/
def pyLower (s : String) : String :=
  ⟨s.data.map Char.toLower⟩

/-- Python `s.strip()`: drop whitespace from both ends. -/
def pyStrip (s : String) : String :=
  ⟨((s.data.dropWhile Char.isWhitespace).reverse.dropWhile Char.isWhitespace).reverse⟩

/-- Python `s.replace(target, repl)` for a single-character target (the
only shape the code uses: `s.replace('Z', '+00:00')`). -/
def pyReplace (s : String) (target : Char) (repl : String) : String :=
  ⟨s.data.foldr (fun c acc => if c = target then repl.data ++ acc else c :: acc) []⟩

/-- Python `s.startswith(pfx)`. -/
def pyStartswith (pfx s : String) : Bool :=
  pfx.data.isPrefixOf s.data

/-- Python truthiness filter for an optional string: `None` and `""` are
falsy, any other string truthy. -/
def pyStrOpt : Option String → Option String
  | some s => if s = "" then none else some s
  | none => none

/-- Value of a decimal digit character, `none` otherwise. -/
def digitVal (c : Char) : Option Nat :=
  if c.isDigit then some (c.toNat - 48) else none

/-- Digits of a Python int literal after the first digit: decimal digits
with single underscores allowed between digit groups (as accepted by
`int(...)` in Python 3). -/
def pyDigitsAux : List Char → Nat → Option Nat
  | [], acc => some acc
  | '_' :: c :: rest, acc =>
    match digitVal c with
    | some d => pyDigitsAux rest (acc * 10 + d)
    | none => none
  | c :: rest, acc =>
    match digitVal c with
    | some d => pyDigitsAux rest (acc * 10 + d)
    | none => none

/-- Unsigned part of Python `int(...)`: at least one digit, underscores
only between digits. -/
def pyNatCore : List Char → Option Nat
  | [] => none
  | c :: rest =>
    match digitVal c with
    | some d => pyDigitsAux rest d
    | none => none

/-- Python `int(s)` on an already-stripped string: optional sign followed
by decimal digits (underscore group separators allowed); anything else
raises `ValueError`, modelled as `none`. -/
def pyIntParse (s : String) : Option Int :=
  match s.data with
  | '+' :: rest => (pyNatCore rest).map Int.ofNat
  | '-' :: rest => (pyNatCore rest).map (fun n => -(n : Int))
  | rest => (pyNatCore rest).map Int.ofNat

/-- Two decimal digits. -/
def digit2 : List Char → Option (Nat × List Char)
  | a :: b :: rest =>
    match digitVal a, digitVal b with
    | some x, some y => some (x * 10 + y, rest)
    | _, _ => none
  | _ => none

/-- Four decimal digits. -/
def digit4 : List Char → Option (Nat × List Char)
  | a :: b :: c :: d :: rest =>
    match digitVal a, digitVal b, digitVal c, digitVal d with
    | some w, some x, some y, some z => some (w * 1000 + x * 100 + y * 10 + z, rest)
    | _, _, _, _ => none
  | _ => none

/-- Consume an expected character. -/
def expectChar (c : Char) : List Char → Option (List Char)
  | x :: rest => if x = c then some rest else none
  | [] => none

/-- Days since 1970-01-01 of a civil date (proleptic Gregorian), the
standard civil-from-days algorithm. -/
def daysFromCivil (y : Int) (m : Nat) (d : Nat) : Int :=
  let y2 : Int := if m ≤ 2 then y - 1 else y
  let era : Int := (if 0 ≤ y2 then y2 else y2 - 399) / 400
  let yoe : Int := y2 - era * 400
  let mp : Int := ((m : Int) + 9) % 12
  let doy : Int := (153 * mp + 2) / 5 + (d : Int) - 1
  let doe : Int := yoe * 365 + yoe / 4 - yoe / 100 + doy
  era * 146097 + doe - 719468

/-- Seconds-in-day part `HH:MM[:SS]` of an ISO time. -/
def parseTime (cs : List Char) : Option (Nat × List Char) := do
  let (h, cs) ← digit2 cs
  if h ≥ 24 then none else
  let cs ← expectChar ':' cs
  let (mi, cs) ← digit2 cs
  if mi ≥ 60 then none else
  match cs with
  | ':' :: cs2 =>
    match digit2 cs2 with
    | some (sec, cs3) => if sec ≥ 60 then none else some (h * 3600 + mi * 60 + sec, cs3)
    | none => none
  | _ => some (h * 3600 + mi * 60, cs)

/-- UTC-offset suffix `±HH:MM` (empty suffix = naive time, offset 0). -/
def parseOffset : List Char → Option Int
  | [] => some 0
  | '+' :: rest => do
    let (h, rest) ← digit2 rest
    let rest ← expectChar ':' rest
    let (m, rest) ← digit2 rest
    if rest = [] then some ((h * 3600 + m * 60 : Nat) : Int) else none
  | '-' :: rest => do
    let (h, rest) ← digit2 rest
    let rest ← expectChar ':' rest
    let (m, rest) ← digit2 rest
    if rest = [] then some (-((h * 3600 + m * 60 : Nat) : Int)) else none
  | _ => none

/-- Model of Python `datetime.fromisoformat` on the grammar
`YYYY-MM-DD[T ]HH:MM[:SS][±HH:MM]`, returning POSIX seconds; `none`
models `ValueError`. -/
def fromisoformat (s : String) : Option Int := do
  let cs := s.data
  let (y, cs) ← digit4 cs
  let cs ← expectChar '-' cs
  let (mo, cs) ← digit2 cs
  if mo = 0 ∨ mo > 12 then none else
  let cs ← expectChar '-' cs
  let (d, cs) ← digit2 cs
  if d = 0 ∨ d > 31 then none else
  match cs with
  | sep :: cs =>
    if sep = 'T' ∨ sep = ' ' then do
      let (secs, cs) ← parseTime cs
      let off ← parseOffset cs
      some (daysFromCivil (y : Int) mo d * 86400 + (secs : Int) - off)
    else none
  | [] => some (daysFromCivil (y : Int) mo d * 86400)

/-- A calendar-event attachment (`event['attachments']` entry); only the
`title` key is consulted by the pipeline (`att.get('title', '')`). -/
structure Attachment where
  title : Option String
deriving Repr, DecidableEq

/-- A Google calendar event as consumed by the orchestrator: the dict keys
it reads.  `conferenceId` flattens `event.get('conferenceData', {})
.get('conferenceId')`; `startDateTime` is `event.get('start', {})
.get('dateTime')`. -/
structure CalendarEvent where
  id : String
  summary : Option String
  startDateTime : Option String
  conferenceId : Option String
  attachments : List Attachment
deriving Repr, DecidableEq

/-- Model of the `Meeting` dataclass of `src/providers/base.py` (id, name, start_time,
original_data).  `rawContent` models `original_data.get('raw_content')`
(the only key the core reads).  `conference_id` models the *dynamic*
attribute consulted by `hasattr(meeting, 'conference_id')` in
`orchestrator.py:223`: the dataclass declares no such field and no shipped
connector assigns one, so for every meeting a shipped connector builds it
is `none` (= attribute absent). -/
structure Meeting where
  id : String
  name : String
  start_time : Int
  rawContent : Option String
  conference_id : Option String := none
deriving Repr, DecidableEq

/-- Model of the `Transcript` dataclass of `src/providers/base.py` (the `original_data`
field is never read by the orchestrator). -/
structure Transcript where
  text : String
deriving Repr, DecidableEq

/-- Python truthiness of `transcript and transcript.text`
(`orchestrator.py:102,117`): a present transcript with non-empty text. -/
def pyTranscriptOpt : Option Transcript → Option Transcript
  | some t => if t.text = "" then none else some t
  | none => none

/-- Model of `GoogleApi.has_attachment` (`google_api.py:106-108`):
`any(att.get('title', '').startswith(title_prefix) for att in attachments)`. -/
def has_attachment (attachments : List Attachment) (pfx : String) : Bool :=
  attachments.any (fun att => pyStartswith pfx (att.title.getD ""))

/-- Ignore-keyword test of `orchestrator.py:93`:
`any(keyword.lower() in event_summary.lower() for keyword in IGNORE_KEYWORDS)`. -/
def ignoredSummary (ignoreKeywords : List String) (eventSummary : String) : Bool :=
  ignoreKeywords.any (fun kw => pyIn (pyLower kw) (pyLower eventSummary))

/-- Default of the `IGNORE_KEYWORDS` environment variable
(`orchestrator.py:11`): `"1:1,1-1,catch-up".split(',')`. -/
def IGNORE_KEYWORDS_default : List String := ["1:1", "1-1", "catch-up"]

/-- Parsed start time of an event as stage 2 computes it
(`orchestrator.py:247-252`): `event.get('start', {}).get('dateTime')`
(falsy string skipped) then
`datetime.fromisoformat(s.replace('Z', '+00:00'))`. -/
def eventStartTime (e : CalendarEvent) : Option Int :=
  (pyStrOpt e.startDateTime).bind (fun s => fromisoformat (pyReplace s 'Z' "+00:00"))

/-- Test that an event's start string, when present and non-empty,
parses: the inputs on which stage 2 cannot raise `ValueError`. -/
def eventStartOk (e : CalendarEvent) : Bool :=
  match pyStrOpt e.startDateTime with
  | none => true
  | some s => (fromisoformat (pyReplace s 'Z' "+00:00")).isSome

/-- Inner meeting scan of `Orchestrator._match_by_conference_id`
(`orchestrator.py:222-230`): skip meetings already matched by id, or whose
`conference_id` attribute is absent/falsy; return the first meeting whose
`conference_id` equals the event's. -/
def findConfMatch (confId : String) (matched : List String) : List Meeting → Option Meeting
  | [] => none
  | m :: rest =>
    if m.id ∈ matched ∨ pyStrOpt m.conference_id = none then
      findConfMatch confId matched rest
    else if m.conference_id = some confId then some m
    else findConfMatch confId matched rest

/-- Event loop of `Orchestrator._match_by_conference_id`
(`orchestrator.py:215-232`), threading the `meeting_ids_matched` set
(modelled as a list) and accumulating matched pairs and unmatched events
in order. -/
def matchConfGo (meetings : List Meeting) :
    List CalendarEvent → List String →
      List (CalendarEvent × Meeting) × List CalendarEvent × List String
  | [], matched => ([], [], matched)
  | e :: rest, matched =>
    match pyStrOpt e.conferenceId with
    | none =>
      let (ps, us, ms) := matchConfGo meetings rest matched
      (ps, e :: us, ms)
    | some cid =>
      match findConfMatch cid matched meetings with
      | some m =>
        let (ps, us, ms) := matchConfGo meetings rest (m.id :: matched)
        ((e, m) :: ps, us, ms)
      | none =>
        let (ps, us, ms) := matchConfGo meetings rest matched
        (ps, e :: us, ms)

/-- Model of `Orchestrator._match_by_conference_id` (`orchestrator.py:208-236`):
returns (matched pairs, unmatched events, unmatched meetings), where
`unmatched_meetings = [m for m in meetings if m.id not in meeting_ids_matched]`. -/
def match_by_conference_id (events : List CalendarEvent) (meetings : List Meeting) :
    List (CalendarEvent × Meeting) × List CalendarEvent × List Meeting :=
  let (pairs, unmatchedE, matched) := matchConfGo meetings events []
  (pairs, unmatchedE, meetings.filter (fun m => !(matched.contains m.id)))

/-- Inner meeting scan of `Orchestrator._match_by_time_and_title`
(`orchestrator.py:255-267`): first meeting not yet matched by id whose
name equals the event summary case-insensitively and whose start time is
strictly within `timedelta(minutes=5)` of the event's. -/
def findTimeTitleMatch (summary : String) (eventStart : Int) (matched : List String) :
    List Meeting → Option Meeting
  | [] => none
  | m :: rest =>
    if m.id ∈ matched then findTimeTitleMatch summary eventStart matched rest
    else if pyLower summary = pyLower m.name ∧ |eventStart - m.start_time| < 300 then some m
    else findTimeTitleMatch summary eventStart matched rest

/-- Event loop of `Orchestrator._match_by_time_and_title`
(`orchestrator.py:245-269`).  An event whose `start.dateTime` is
absent/falsy is unmatched (`continue`); one whose string does not parse
makes `datetime.fromisoformat` raise `ValueError` (`.error`). -/
def matchTTGo (meetings : List Meeting) :
    List CalendarEvent → List String →
      Except String (List (CalendarEvent × Meeting) × List CalendarEvent × List String)
  | [], matched => .ok ([], [], matched)
  | e :: rest, matched =>
    let summary := e.summary.getD "NO_TITLE"
    match pyStrOpt e.startDateTime with
    | none =>
      match matchTTGo meetings rest matched with
      | .error err => .error err
      | .ok (ps, us, ms) => .ok (ps, e :: us, ms)
    | some s =>
      match fromisoformat (pyReplace s 'Z' "+00:00") with
      | none => .error "ValueError: Invalid isoformat string"
      | some t =>
        match findTimeTitleMatch summary t matched meetings with
        | some m =>
          match matchTTGo meetings rest (m.id :: matched) with
          | .error err => .error err
          | .ok (ps, us, ms) => .ok ((e, m) :: ps, us, ms)
        | none =>
          match matchTTGo meetings rest matched with
          | .error err => .error err
          | .ok (ps, us, ms) => .ok (ps, e :: us, ms)

/-- Model of `Orchestrator._match_by_time_and_title` (`orchestrator.py:238-273`). -/
def match_by_time_and_title (events : List CalendarEvent) (meetings : List Meeting) :
    Except String (List (CalendarEvent × Meeting) × List CalendarEvent × List Meeting) :=
  match matchTTGo meetings events [] with
  | .error err => .error err
  | .ok (pairs, unmatchedE, matched) =>
    .ok (pairs, unmatchedE, meetings.filter (fun m => !(matched.contains m.id)))

/-- Model of `AIMapper.match_meeting_to_event` (`ai_mapper.py:27-93`).
`enabled` is `bool(api_base and api_key)`; `complete` abstracts the
`litellm.completion` call (the prompt at lines 50-62 is a deterministic
function of `meeting.original_data['raw_content'][:15000]` and the
candidate list, so the call is a function of the meeting and the current
candidates); its `.error` case models the call raising, which lines 91-93
catch and turn into `None`.  A response is accepted only when, stripped,
it is not `'none'` case-insensitively and `int(...)` parses it to an index
inside `[0, len(events))`. -/
def match_meeting_to_event (enabled : Bool)
    (complete : Meeting → List CalendarEvent → Except String String)
    (meeting : Meeting) (events : List CalendarEvent) : Option CalendarEvent :=
  if !enabled then none
  else match pyStrOpt meeting.rawContent with
  | none => none
  | some _ =>
    match complete meeting events with
    | .error _ => none
    | .ok content =>
      let responseText := pyStrip content
      if pyLower responseText = "none" then none
      else match pyIntParse responseText with
      | none => none
      | some i =>
        if h : 0 ≤ i ∧ i.toNat < events.length then some (events.get ⟨i.toNat, h.2⟩)
        else none

/-- Meeting loop of `Orchestrator._match_by_ai` (`orchestrator.py:193-202`):
each unmatched meeting gets one AI attempt against the current event pool;
on a match the chosen event is removed from the pool
(`unmatched_events.remove(best_match_event)`, modelled by `List.erase`
since Python `list.remove` drops the first equal element). -/
def matchAiGo (enabled : Bool)
    (complete : Meeting → List CalendarEvent → Except String String) :
    List Meeting → List CalendarEvent →
      List (CalendarEvent × Meeting) × List CalendarEvent × List Meeting
  | [], events => ([], events, [])
  | m :: rest, events =>
    match match_meeting_to_event enabled complete m events with
    | some e =>
      let (ps, us, ums) := matchAiGo enabled complete rest (events.erase e)
      ((e, m) :: ps, us, ums)
    | none =>
      let (ps, us, ums) := matchAiGo enabled complete rest events
      (ps, us, m :: ums)

/-- Model of `Orchestrator.match_events_and_meetings` (`orchestrator.py:51-84`):
stage 1 then stage 2 unless `force_ai`, then stage 3 only if both
remaining pools are non-empty (Python truthiness of the lists); returns
`all_matches`.  (`_match_by_ai`'s `if not self.ai_mapper` guard at line
186 is dead: the constructed `AIMapper` object is always truthy.) -/
def match_events_and_meetings (enabled : Bool)
    (complete : Meeting → List CalendarEvent → Except String String)
    (events : List CalendarEvent) (meetings : List Meeting) (forceAi : Bool) :
    Except String (List (CalendarEvent × Meeting)) :=
  if forceAi then
    if events ≠ [] ∧ meetings ≠ [] then
      .ok (matchAiGo enabled complete meetings events).1
    else .ok []
  else
    match match_by_conference_id events meetings with
    | (s1, ue1, um1) =>
      match match_by_time_and_title ue1 um1 with
      | .error err => .error err
      | .ok (s2, ue2, um2) =>
        if ue2 ≠ [] ∧ um2 ≠ [] then
          .ok (s1 ++ s2 ++ (matchAiGo enabled complete um2 ue2).1)
        else .ok (s1 ++ s2)

/-- Spec-side qualification test for a stage-2 pairing: exact
case-insensitive title match with a start time strictly inside the
five-minute threshold. -/
def stage2Qualifies (summary : String) (t : Int) (m : Meeting) : Bool :=
  decide (pyLower summary = pyLower m.name ∧ |t - m.start_time| < 300)

/-- Modelled from the spec (§4.1, stage 2), for comparison with the code:
"For each remaining event (in input order), scan remaining recordings for
an exact case-insensitive title match whose start time differs by less
than a fixed threshold (5 minutes).  On first qualifying recording found,
pair and remove both from their pools; continue to the next event."
Events without a parsable start time are excluded from this stage. -/
def stage2SpecGo : List CalendarEvent → List Meeting →
    List (CalendarEvent × Meeting) × List CalendarEvent × List Meeting
  | [], pool => ([], [], pool)
  | e :: rest, pool =>
    match eventStartTime e with
    | none =>
      let (ps, us, ms) := stage2SpecGo rest pool
      (ps, e :: us, ms)
    | some t =>
      match pool.find? (stage2Qualifies (e.summary.getD "NO_TITLE") t) with
      | some m =>
        let (ps, us, ms) := stage2SpecGo rest (pool.erase m)
        ((e, m) :: ps, us, ms)
      | none =>
        let (ps, us, ms) := stage2SpecGo rest pool
        (ps, e :: us, ms)

/-- The externally observable operations `process_attachment` performs,
in order: entering a pair (the logging at `orchestrator.py:90-91`),
calling `connector.get_transcript`, and a completed
create-and-attach call carrying the document title and content. -/
inductive Effect where
  | startPair (eventId : String) (meetingId : String)
  | fetchTranscript (meetingId : String)
  | attachCall (eventId : String) (title : String) (content : String)
  | getNotesCall (meetingId : String)
deriving Repr, DecidableEq

/-- Behaviour of a `BaseConnector` (`src/providers/base.py`): both
operations may raise (`.error`) or return no result (`none`). -/
structure Connector where
  getTranscript : Meeting → Except String (Option Transcript)
  getNotes : Meeting → Except String (Option String)

/-- The attach operation the orchestrator invokes as
`self.google_api.create_and_attach_google_doc(event, title, content)`
(`orchestrator.py:108,123`), abstracted over what that attribute denotes
at runtime.  `GoogleApi` (`google_api.py`) defines `create_and_attach_doc`
(line 110) and *no* `create_and_attach_google_doc`, so on the class as
shipped the attribute lookup itself raises `AttributeError`: -/
def missingCreateAndAttachGoogleDoc :
    CalendarEvent → String → String → Except String Unit :=
  fun _ _ _ =>
    .error "AttributeError: GoogleApi object has no attribute create_and_attach_google_doc"

/-- Shared shape of the two document-kind branches of
`Orchestrator.process_attachment` (`orchestrator.py:97-108` and
`110-123`), which are identical apart from the dedup prefix and the
created title: skip the kind if an existing attachment title starts with
`pfx`; otherwise fetch the transcript (its exception propagates), skip on
an absent/empty text, perform nothing under dry run, else invoke the
create-and-attach operation with the given title and the transcript
text. -/
def kindBranch (conn : Connector)
    (attach : CalendarEvent → String → String → Except String Unit)
    (event : CalendarEvent) (meeting : Meeting) (pfx title : String)
    (dryRun : Bool) : List Effect × Option String :=
  if has_attachment event.attachments pfx then ([], none)
  else
    match conn.getTranscript meeting with
    | .error err => ([Effect.fetchTranscript meeting.id], some err)
    | .ok t =>
      match pyTranscriptOpt t with
      | none => ([Effect.fetchTranscript meeting.id], none)
      | some tr =>
        if dryRun then ([Effect.fetchTranscript meeting.id], none)
        else
          match attach event title tr.text with
          | .ok _ =>
            ([Effect.fetchTranscript meeting.id,
              Effect.attachCall event.id title tr.text], none)
          | .error err => ([Effect.fetchTranscript meeting.id], some err)

/-- Model of `Orchestrator.process_attachment` (`orchestrator.py:86-123`):
ignore filter, then the transcript branch (dedup prefix
`'Transcript for'`, created title `f"{event_summary} - Transcript"`),
then the AI-notes branch (dedup prefix `'AI Notes for'`, created title
`f"Notes for {meeting.name}"`, built from `get_transcript`, not
`get_notes`).  Returns the effect trace and the exception that escaped,
if any (the function body has no try/except, so an exception in the
transcript branch prevents the notes branch from running). -/
def process_attachment (conn : Connector)
    (attach : CalendarEvent → String → String → Except String Unit)
    (ignoreKeywords : List String) (event : CalendarEvent) (meeting : Meeting)
    (dryRun : Bool) : List Effect × Option String :=
  let eventSummary := event.summary.getD "No Title"
  let trace0 := [Effect.startPair event.id meeting.id]
  if ignoredSummary ignoreKeywords eventSummary then (trace0, none)
  else
    match kindBranch conn attach event meeting "Transcript for"
        (eventSummary ++ " - Transcript") dryRun with
    | (tEffs, some err) => (trace0 ++ tEffs, some err)
    | (tEffs, none) =>
      let nBranch := kindBranch conn attach event meeting "AI Notes for"
        ("Notes for " ++ meeting.name) dryRun
      (trace0 ++ tEffs ++ nBranch.1, nBranch.2)

/-- The per-pair loop of `Orchestrator.run_cli` (`orchestrator.py:179-180`):
`for event, meeting in matched_pairs: self.process_attachment(...)` with no
try/except around the body, so an exception escaping `process_attachment`
aborts the loop. -/
def processPairs (conn : Connector)
    (attach : CalendarEvent → String → String → Except String Unit)
    (ignoreKeywords : List String) (dryRun : Bool) :
    List (CalendarEvent × Meeting) → List Effect × Option String
  | [] => ([], none)
  | (e, m) :: rest =>
    match process_attachment conn attach ignoreKeywords e m dryRun with
    | (effs, some err) => (effs, some err)
    | (effs, none) =>
      let (effs2, res) := processPairs conn attach ignoreKeywords dryRun rest
      (effs ++ effs2, res)

/-- Concrete event used by witnesses: a matched "Standup" event with no
attachments yet. -/
def evStandup : CalendarEvent :=
  { id := "e1", summary := some "Standup",
    startDateTime := some "2025-01-01T10:00:00Z", conferenceId := none,
    attachments := [] }

/-- Concrete recording matched with `evStandup` (same name, same start
time as `2025-01-01T10:00:00+00:00`). -/
def mStandup : Meeting :=
  { id := "m1", name := "Standup", start_time := 1735725600,
    rawContent := none }

/-- The event `evStandup` as it looks after one non-dry run of
`process_attachment` against a well-behaved attach operation: the titles
created by that run appended to its attachment list. -/
def evStandupRerun : CalendarEvent :=
  { evStandup with
    attachments := [⟨some "Standup - Transcript"⟩, ⟨some "Notes for Standup"⟩] }

/-- Connector whose transcript fetch always succeeds with text
`"hello"`. -/
def connHello : Connector :=
  { getTranscript := fun _ => .ok (some { text := "hello" }),
    getNotes := fun _ => .ok none }

/-- Create-and-attach operation that always succeeds. -/
def attachOk : CalendarEvent → String → String → Except String Unit :=
  fun _ _ _ => .ok ()

/-- Completion service that always raises. -/
def svcBoom : Meeting → List CalendarEvent → Except String String :=
  fun _ _ => .error "boom"

/-- Concrete event whose `start.dateTime` is present but not parsable as a
timestamp. -/
def evGarbage : CalendarEvent :=
  { id := "eg", summary := some "Planning", startDateTime := some "garbage",
    conferenceId := none, attachments := [] }

/-- Concrete event titled "Sync" starting 10:04, four minutes after
`mSync` — inside the five-minute stage-2 window. -/
def evA : CalendarEvent :=
  { id := "eA", summary := some "Sync", startDateTime := some "2025-01-01T10:04:00Z",
    conferenceId := none, attachments := [] }

/-- Concrete event titled "Sync" starting 10:00, exactly at `mSync`'s
start time — the globally closest candidate, listed second. -/
def evB : CalendarEvent :=
  { id := "eB", summary := some "Sync", startDateTime := some "2025-01-01T10:00:00Z",
    conferenceId := none, attachments := [] }

/-- Concrete recording named "sync" at 10:00 (`2025-01-01T10:00:00+00:00`). -/
def mSync : Meeting :=
  { id := "mS", name := "sync", start_time := 1735725600, rawContent := none }

/-- Concrete event whose `start.dateTime` is absent. -/
def evMissingStart : CalendarEvent :=
  { id := "en", summary := some "Planning", startDateTime := none,
    conferenceId := none, attachments := [] }

/-- Second matched pair for the run-loop witness. -/
def evStandup2 : CalendarEvent := { evStandup with id := "e2" }

/-- Second matched recording for the run-loop witness. -/
def mStandup2 : Meeting := { mStandup with id := "m2" }

lemma findConfMatch_of_none (cid : String) (matched : List String) :
    ∀ ms : List Meeting, (∀ m ∈ ms, m.conference_id = none) →
      findConfMatch cid matched ms = none := by
  intro ms
  induction ms with
  | nil => intro _; rfl
  | cons m rest ih =>
    intro h
    have hm : m.conference_id = none := h m (List.mem_cons_self m rest)
    unfold findConfMatch
    rw [if_pos (Or.inr (by rw [hm]; rfl))]
    exact ih (fun x hx => h x (List.mem_cons_of_mem _ hx))

lemma matchConfGo_of_none (meetings : List Meeting)
    (hm : ∀ m ∈ meetings, m.conference_id = none) :
    ∀ events matched, matchConfGo meetings events matched = ([], events, matched) := by
  intro events
  induction events with
  | nil => intro _; rfl
  | cons e rest ih =>
    intro matched
    unfold matchConfGo
    cases hc : pyStrOpt e.conferenceId with
    | none => rw [ih matched]
    | some cid =>
      simp only [findConfMatch_of_none cid matched meetings hm, ih matched]

/-- C8: with every shipped connector's meetings (no `conference_id`
attribute on the `Meeting` record), stage 1 matches nothing and returns
every event and every meeting unmatched, without raising. -/
theorem c8_stage1_vacuous (events : List CalendarEvent) (meetings : List Meeting)
    (hm : ∀ m ∈ meetings, m.conference_id = none) :
    match_by_conference_id events meetings = ([], events, meetings) := by
  unfold match_by_conference_id
  rw [matchConfGo_of_none meetings hm events []]
  simp

theorem c8_stage1_vacuous_witness :
    match_by_conference_id [evStandup] [mStandup] = ([], [evStandup], [mStandup]) :=
  c8_stage1_vacuous [evStandup] [mStandup] (by decide)

/-- C7: a matched pair whose event title contains a configured ignore
keyword as a case-insensitive substring is skipped before any document
work: `process_attachment` performs no transcript fetch, creates no
document and attaches nothing, for any document kind, any connector and
service behaviour, and no exception escapes. -/
theorem c7_ignore_filter_wins (conn : Connector)
    (attach : CalendarEvent → String → String → Except String Unit)
    (kws : List String) (event : CalendarEvent) (meeting : Meeting) (dryRun : Bool)
    (h : ignoredSummary kws (event.summary.getD "No Title") = true) :
    process_attachment conn attach kws event meeting dryRun
      = ([Effect.startPair event.id meeting.id], none) := by
  unfold process_attachment
  rw [if_pos h]

theorem c7_ignore_filter_wins_witness :
    process_attachment connHello attachOk IGNORE_KEYWORDS_default
        { evStandup with summary := some "Team 1:1 Sync" } mStandup false
      = ([Effect.startPair "e1" "m1"], none) :=
  c7_ignore_filter_wins connHello attachOk IGNORE_KEYWORDS_default
    { evStandup with summary := some "Team 1:1 Sync" } mStandup false (by decide)

/-- C9: with `force_ai` set, stages 1 and 2 are skipped entirely and the
whole input (every event and every recording) is handed to the AI stage,
which runs only when both lists are non-empty; no exception is
possible. -/
theorem c9_force_ai_skips_deterministic_stages (enabled : Bool)
    (complete : Meeting → List CalendarEvent → Except String String)
    (events : List CalendarEvent) (meetings : List Meeting) :
    match_events_and_meetings enabled complete events meetings true
      = .ok (if events = [] ∨ meetings = [] then []
             else (matchAiGo enabled complete meetings events).1) := by
  unfold match_events_and_meetings
  by_cases he : events = []
  · simp [he]
  · by_cases hm : meetings = [] <;> simp [he, hm]

/-- C1 is violated by the code (code bug): the dedup prefixes checked
(`'Transcript for'`, `'AI Notes for'`) are not prefixes of the titles the
pipeline itself creates (`f"{summary} - Transcript"`,
`f"Notes for {meeting.name}"`).  Concretely, processing the Standup pair
once (with a well-behaved create-and-attach operation) creates documents
titled `"Standup - Transcript"` and `"Notes for Standup"`; processing the
same pair again with exactly those attachment titles present creates a
second document of each kind instead of skipping. -/
theorem c1_dedup_not_idempotent :
    (Effect.attachCall "e1" "Standup - Transcript" "hello"
        ∈ (process_attachment connHello attachOk IGNORE_KEYWORDS_default
            evStandup mStandup false).1
      ∧ Effect.attachCall "e1" "Notes for Standup" "hello"
        ∈ (process_attachment connHello attachOk IGNORE_KEYWORDS_default
            evStandup mStandup false).1)
    ∧ Effect.attachCall "e1" "Standup - Transcript" "hello"
        ∈ (process_attachment connHello attachOk IGNORE_KEYWORDS_default
            evStandupRerun mStandup false).1
    ∧ Effect.attachCall "e1" "Notes for Standup" "hello"
        ∈ (process_attachment connHello attachOk IGNORE_KEYWORDS_default
            evStandupRerun mStandup false).1 := by
  refine ⟨⟨?_, ?_⟩, ?_, ?_⟩ <;> decide

/-- C2 is violated by the code (code bug): the per-pair loop in `run_cli`
has no try/except, and the attach step calls
`google_api.create_and_attach_google_doc`, an attribute `GoogleApi` does
not define, so the first non-dry-run pair with transcript content raises
`AttributeError` and the loop never reaches the second pair. -/
theorem c2_run_cli_loop_aborts :
    processPairs connHello missingCreateAndAttachGoogleDoc IGNORE_KEYWORDS_default
        false [(evStandup, mStandup), (evStandup2, mStandup2)]
      = ([Effect.startPair "e1" "m1", Effect.fetchTranscript "m1"],
         some "AttributeError: GoogleApi object has no attribute create_and_attach_google_doc")
    ∧ Effect.startPair "e2" "m2"
        ∉ (processPairs connHello missingCreateAndAttachGoogleDoc
            IGNORE_KEYWORDS_default false
            [(evStandup, mStandup), (evStandup2, mStandup2)]).1 := by
  refine ⟨?_, ?_⟩ <;> decide

/-- C6: the AI fallback matcher returns a candidate only when the
stripped response parses as an integer index inside
`[0, len(candidates))`, in which case it returns that candidate; a
response of `'none'` (case-insensitive), unparseable text or an
out-of-range index yields no match, and an exception raised by the
completion service is caught and yields no match. -/
theorem c6_ai_response_validation (enabled : Bool)
    (complete : Meeting → List CalendarEvent → Except String String)
    (meeting : Meeting) (events : List CalendarEvent) :
    (∀ e, match_meeting_to_event enabled complete meeting events = some e →
      ∃ s i, complete meeting events = .ok s ∧ pyIntParse (pyStrip s) = some i ∧
        0 ≤ i ∧ i.toNat < events.length ∧ events[i.toNat]? = some e)
    ∧ (∀ err, complete meeting events = .error err →
        match_meeting_to_event enabled complete meeting events = none)
    ∧ (∀ s, complete meeting events = .ok s →
        (pyLower (pyStrip s) = "none" ∨ pyIntParse (pyStrip s) = none ∨
          ∃ i, pyIntParse (pyStrip s) = some i ∧ (i < 0 ∨ (events.length : Int) ≤ i)) →
        match_meeting_to_event enabled complete meeting events = none) := by
  refine ⟨?_, ?_, ?_⟩
  · intro e he
    cases hen : enabled with
    | false => rw [hen] at he; simp [match_meeting_to_event] at he
    | true =>
      rw [hen] at he
      cases hrc : pyStrOpt meeting.rawContent with
      | none => simp [match_meeting_to_event, hrc] at he
      | some rc =>
        cases hcomp : complete meeting events with
        | error err => simp [match_meeting_to_event, hrc, hcomp] at he
        | ok s =>
          by_cases hnone : pyLower (pyStrip s) = "none"
          · simp [match_meeting_to_event, hrc, hcomp, hnone] at he
          · cases hp : pyIntParse (pyStrip s) with
            | none => simp [match_meeting_to_event, hrc, hcomp, hnone, hp] at he
            | some i =>
              simp only [match_meeting_to_event, hrc, hcomp, hnone, hp,
                Bool.not_true, Bool.false_eq_true, if_false, if_neg] at he
              split at he
              next h =>
                refine ⟨s, i, rfl, hp, h.1, h.2, ?_⟩
                rw [List.getElem?_eq_getElem h.2]
                exact congrArg some (Option.some.inj he)
              next h => exact absurd he (by simp)
  · intro err herr
    cases hen : enabled with
    | false => simp [match_meeting_to_event]
    | true =>
      cases hrc : pyStrOpt meeting.rawContent with
      | none => simp [match_meeting_to_event, hrc]
      | some rc => simp [match_meeting_to_event, hrc, herr]
  · intro s hs hbad
    cases hen : enabled with
    | false => simp [match_meeting_to_event]
    | true =>
      cases hrc : pyStrOpt meeting.rawContent with
      | none => simp [match_meeting_to_event, hrc]
      | some rc =>
        rcases hbad with h1 | h2 | ⟨i, hp, hrange⟩
        · simp [match_meeting_to_event, hrc, hs, h1]
        · by_cases hnone : pyLower (pyStrip s) = "none"
          · simp [match_meeting_to_event, hrc, hs, hnone]
          · simp [match_meeting_to_event, hrc, hs, hnone, h2]
        · by_cases hnone : pyLower (pyStrip s) = "none"
          · simp [match_meeting_to_event, hrc, hs, hnone]
          · simp only [match_meeting_to_event, hrc, hs, hnone, hp, Bool.not_true,
              Bool.false_eq_true, if_false, if_neg]
            rw [dif_neg]
            rintro ⟨hge, hlt⟩
            omega

theorem c6_ai_response_validation_witness :
    match_meeting_to_event true svcBoom mStandup [evStandup] = none :=
  (c6_ai_response_validation true svcBoom mStandup [evStandup]).2.1 "boom" rfl

lemma kindBranch_no_getNotes (conn : Connector)
    (attach : CalendarEvent → String → String → Except String Unit)
    (event : CalendarEvent) (meeting : Meeting) (pfx title : String)
    (dryRun : Bool) (mid : String) :
    Effect.getNotesCall mid ∉ (kindBranch conn attach event meeting pfx title dryRun).1 := by
  unfold kindBranch
  split
  · simp
  · split
    · simp
    · split
      · simp
      · split
        · simp
        · split <;> simp

lemma process_attachment_no_getNotes (conn : Connector)
    (attach : CalendarEvent → String → String → Except String Unit)
    (kws : List String) (event : CalendarEvent) (meeting : Meeting)
    (dryRun : Bool) (mid : String) :
    Effect.getNotesCall mid ∉ (process_attachment conn attach kws event meeting dryRun).1 := by
  unfold process_attachment
  dsimp only
  split
  · simp
  · split
    next tEffs err heq =>
      have h1 := kindBranch_no_getNotes conn attach event meeting "Transcript for"
        (event.summary.getD "No Title" ++ " - Transcript") dryRun mid
      rw [heq] at h1
      intro hmem
      rcases List.mem_append.mp hmem with h | h
      · simp at h
      · exact h1 h
    next tEffs heq =>
      have h1 := kindBranch_no_getNotes conn attach event meeting "Transcript for"
        (event.summary.getD "No Title" ++ " - Transcript") dryRun mid
      rw [heq] at h1
      have h2 := kindBranch_no_getNotes conn attach event meeting "AI Notes for"
        ("Notes for " ++ meeting.name) dryRun mid
      intro hmem
      rcases List.mem_append.mp hmem with h | h
      · rcases List.mem_append.mp h with h3 | h3
        · simp at h3
        · exact h1 h3
      · exact h2 h

/-- C10: for a non-skipped pair whose notes kind is processed (no ignore
keyword, no `'AI Notes for'` attachment, transcript present and
non-empty, not a dry run, attach operation succeeding), the pipeline
creates the notes document with title `"Notes for <meeting name>"` and
content equal to `connector.get_transcript(meeting).text`; and on every
input whatsoever, the attachment pipeline never invokes the connector's
`get_notes` operation. -/
theorem c10_notes_built_from_transcript (conn : Connector)
    (attach : CalendarEvent → String → String → Except String Unit)
    (kws : List String) (event : CalendarEvent) (meeting : Meeting) (tr : Transcript)
    (hig : ignoredSummary kws (event.summary.getD "No Title") = false)
    (hatt : has_attachment event.attachments "AI Notes for" = false)
    (ht : conn.getTranscript meeting = .ok (some tr))
    (htxt : tr.text ≠ "")
    (hok : ∀ title content, attach event title content = .ok ()) :
    Effect.attachCall event.id ("Notes for " ++ meeting.name) tr.text
        ∈ (process_attachment conn attach kws event meeting false).1
    ∧ ∀ (c : Connector) (a : CalendarEvent → String → String → Except String Unit)
        (k : List String) (e : CalendarEvent) (m : Meeting) (d : Bool) (mid : String),
        Effect.getNotesCall mid ∉ (process_attachment c a k e m d).1 := by
  constructor
  · have hnb : kindBranch conn attach event meeting "AI Notes for"
        ("Notes for " ++ meeting.name) false
        = ([Effect.fetchTranscript meeting.id,
            Effect.attachCall event.id ("Notes for " ++ meeting.name) tr.text], none) := by
      unfold kindBranch
      rw [ht]
      simp [hatt, pyTranscriptOpt, htxt, hok]
    unfold process_attachment
    dsimp only
    rw [if_neg (by simp [hig])]
    by_cases htr : has_attachment event.attachments "Transcript for"
    · have htb : kindBranch conn attach event meeting "Transcript for"
          (event.summary.getD "No Title" ++ " - Transcript") false = ([], none) := by
        unfold kindBranch
        rw [if_pos htr]
      rw [htb, hnb]
      simp
    · have htb : kindBranch conn attach event meeting "Transcript for"
          (event.summary.getD "No Title" ++ " - Transcript") false
          = ([Effect.fetchTranscript meeting.id,
              Effect.attachCall event.id
                (event.summary.getD "No Title" ++ " - Transcript") tr.text], none) := by
        unfold kindBranch
        rw [ht]
        simp [htr, pyTranscriptOpt, htxt, hok]
      rw [htb, hnb]
      simp
  · exact fun c a k e m d mid => process_attachment_no_getNotes c a k e m d mid

theorem c10_notes_built_from_transcript_witness :
    Effect.attachCall "e1" "Notes for Standup" "hello"
      ∈ (process_attachment connHello attachOk IGNORE_KEYWORDS_default
          evStandup mStandup false).1 :=
  (c10_notes_built_from_transcript connHello attachOk IGNORE_KEYWORDS_default
    evStandup mStandup { text := "hello" } (by decide) (by decide) rfl (by decide)
    (fun _ _ => rfl)).1

/-- C3 counterexample: an event whose `start.dateTime` is present but not
parsable as a timestamp makes the matching engine raise `ValueError`
inside stage 2 (at `datetime.fromisoformat`), so `match` does not return
a result for every input. -/
theorem c3_counterexample_unparsable_start :
    match_events_and_meetings false svcBoom [evGarbage] [mStandup] false
      = .error "ValueError: Invalid isoformat string" := by
  rfl

lemma findConfMatch_mem {cid : String} {matched : List String} :
    ∀ {ms : List Meeting} {m : Meeting}, findConfMatch cid matched ms = some m →
      m ∈ ms ∧ m.id ∉ matched := by
  intro ms
  induction ms with
  | nil => intro m h; exact absurd h (by simp [findConfMatch])
  | cons x rest ih =>
    intro m h
    unfold findConfMatch at h
    by_cases h1 : x.id ∈ matched ∨ pyStrOpt x.conference_id = none
    · rw [if_pos h1] at h
      obtain ⟨hm, hnm⟩ := ih h
      exact ⟨List.mem_cons_of_mem _ hm, hnm⟩
    · rw [if_neg h1] at h
      by_cases h2 : x.conference_id = some cid
      · rw [if_pos h2] at h
        obtain rfl := Option.some.inj h
        push_neg at h1
        exact ⟨List.mem_cons_self _ _, h1.1⟩
      · rw [if_neg h2] at h
        obtain ⟨hm, hnm⟩ := ih h
        exact ⟨List.mem_cons_of_mem _ hm, hnm⟩

lemma findTimeTitleMatch_mem {summary : String} {t : Int} {matched : List String} :
    ∀ {ms : List Meeting} {m : Meeting}, findTimeTitleMatch summary t matched ms = some m →
      m ∈ ms ∧ m.id ∉ matched := by
  intro ms
  induction ms with
  | nil => intro m h; exact absurd h (by simp [findTimeTitleMatch])
  | cons x rest ih =>
    intro m h
    unfold findTimeTitleMatch at h
    by_cases h1 : x.id ∈ matched
    · rw [if_pos h1] at h
      obtain ⟨hm, hnm⟩ := ih h
      exact ⟨List.mem_cons_of_mem _ hm, hnm⟩
    · rw [if_neg h1] at h
      by_cases h2 : pyLower summary = pyLower x.name ∧ |t - x.start_time| < 300
      · rw [if_pos h2] at h
        obtain rfl := Option.some.inj h
        exact ⟨List.mem_cons_self _ _, h1⟩
      · rw [if_neg h2] at h
        obtain ⟨hm, hnm⟩ := ih h
        exact ⟨List.mem_cons_of_mem _ hm, hnm⟩

lemma match_meeting_to_event_mem {enabled : Bool}
    {complete : Meeting → List CalendarEvent → Except String String}
    {meeting : Meeting} {events : List CalendarEvent} {e : CalendarEvent}
    (h : match_meeting_to_event enabled complete meeting events = some e) :
    e ∈ events := by
  unfold match_meeting_to_event at h
  split at h
  · exact absurd h (by simp)
  · split at h
    · exact absurd h (by simp)
    · split at h
      · exact absurd h (by simp)
      · dsimp only at h
        split at h
        · exact absurd h (by simp)
        · split at h
          · exact absurd h (by simp)
          · split at h
            · obtain rfl := Option.some.inj h
              exact List.get_mem _ _ _
            · exact absurd h (by simp)


lemma matchConfGo_spec (meetings : List Meeting) :
    ∀ (events : List CalendarEvent) (matched : List String)
      (ps : List (CalendarEvent × Meeting)) (us : List CalendarEvent) (mz : List String),
      matchConfGo meetings events matched = (ps, us, mz) →
      mz = (ps.map (fun p => p.2.id)).reverse ++ matched
      ∧ events.Perm (ps.map Prod.fst ++ us)
      ∧ (∀ p ∈ ps, p.2 ∈ meetings)
      ∧ (matched.Nodup → mz.Nodup) := by
  intro events
  induction events with
  | nil =>
    intro matched ps us mz h
    unfold matchConfGo at h
    simp only [Prod.mk.injEq] at h
    obtain ⟨rfl, rfl, rfl⟩ := h
    simp
  | cons e rest ih =>
    intro matched ps us mz h
    unfold matchConfGo at h
    cases hc : pyStrOpt e.conferenceId with
    | none =>
      rw [hc] at h
      rcases hrec : matchConfGo meetings rest matched with ⟨ps1, us1, m1⟩
      rw [hrec] at h
      simp only [Prod.mk.injEq] at h
      obtain ⟨rfl, rfl, rfl⟩ := h
      obtain ⟨h1, h2, h3, h4⟩ := ih matched ps1 us1 m1 hrec
      exact ⟨h1, (h2.cons e).trans List.perm_middle.symm, h3, h4⟩
    | some cid =>
      rw [hc] at h
      dsimp only at h
      cases hf : findConfMatch cid matched meetings with
      | none =>
        rw [hf] at h
        rcases hrec : matchConfGo meetings rest matched with ⟨ps1, us1, m1⟩
        rw [hrec] at h
        simp only [Prod.mk.injEq] at h
        obtain ⟨rfl, rfl, rfl⟩ := h
        obtain ⟨h1, h2, h3, h4⟩ := ih matched ps1 us1 m1 hrec
        exact ⟨h1, (h2.cons e).trans List.perm_middle.symm, h3, h4⟩
      | some m =>
        rw [hf] at h
        dsimp only at h
        rcases hrec : matchConfGo meetings rest (m.id :: matched) with ⟨ps1, us1, m1⟩
        rw [hrec] at h
        simp only [Prod.mk.injEq] at h
        obtain ⟨rfl, rfl, rfl⟩ := h
        obtain ⟨h1, h2, h3, h4⟩ := ih (m.id :: matched) ps1 us1 m1 hrec
        obtain ⟨hmm, hmn⟩ := findConfMatch_mem hf
        refine ⟨?_, ?_, ?_, ?_⟩
        · rw [h1]
          simp [List.append_assoc]
        · simp only [List.map_cons, List.cons_append]
          exact h2.cons e
        · intro p hp
          rcases List.mem_cons.mp hp with rfl | hp2
          · exact hmm
          · exact h3 p hp2
        · intro hnd
          exact h4 (List.nodup_cons.mpr ⟨hmn, hnd⟩)

lemma matchTTGo_spec (meetings : List Meeting) :
    ∀ (events : List CalendarEvent) (matched : List String)
      (ps : List (CalendarEvent × Meeting)) (us : List CalendarEvent) (mz : List String),
      matchTTGo meetings events matched = .ok (ps, us, mz) →
      mz = (ps.map (fun p => p.2.id)).reverse ++ matched
      ∧ events.Perm (ps.map Prod.fst ++ us)
      ∧ (∀ p ∈ ps, p.2 ∈ meetings)
      ∧ (matched.Nodup → mz.Nodup)
      ∧ (∀ p ∈ ps, pyStrOpt p.1.startDateTime ≠ none) := by
  intro events
  induction events with
  | nil =>
    intro matched ps us mz h
    unfold matchTTGo at h
    simp only [Except.ok.injEq, Prod.mk.injEq] at h
    obtain ⟨rfl, rfl, rfl⟩ := h
    simp
  | cons e rest ih =>
    intro matched ps us mz h
    unfold matchTTGo at h
    cases hc : pyStrOpt e.startDateTime with
    | none =>
      rw [hc] at h
      cases hrec : matchTTGo meetings rest matched with
      | error err => rw [hrec] at h; exact absurd h (by simp)
      | ok r =>
        rcases r with ⟨ps1, us1, m1⟩
        rw [hrec] at h
        simp only [Except.ok.injEq, Prod.mk.injEq] at h
        obtain ⟨rfl, rfl, rfl⟩ := h
        obtain ⟨h1, h2, h3, h4, h5⟩ := ih matched ps1 us1 m1 hrec
        exact ⟨h1, (h2.cons e).trans List.perm_middle.symm, h3, h4, h5⟩
    | some s =>
      rw [hc] at h
      dsimp only at h
      cases hiso : fromisoformat (pyReplace s 'Z' "+00:00") with
      | none => rw [hiso] at h; exact absurd h (by simp)
      | some t =>
        rw [hiso] at h
        dsimp only at h
        cases hf : findTimeTitleMatch (e.summary.getD "NO_TITLE") t matched meetings with
        | none =>
          rw [hf] at h
          cases hrec : matchTTGo meetings rest matched with
          | error err => rw [hrec] at h; exact absurd h (by simp)
          | ok r =>
            rcases r with ⟨ps1, us1, m1⟩
            rw [hrec] at h
            simp only [Except.ok.injEq, Prod.mk.injEq] at h
            obtain ⟨rfl, rfl, rfl⟩ := h
            obtain ⟨h1, h2, h3, h4, h5⟩ := ih matched ps1 us1 m1 hrec
            exact ⟨h1, (h2.cons e).trans List.perm_middle.symm, h3, h4, h5⟩
        | some m =>
          rw [hf] at h
          dsimp only at h
          cases hrec : matchTTGo meetings rest (m.id :: matched) with
          | error err => rw [hrec] at h; exact absurd h (by simp)
          | ok r =>
            rcases r with ⟨ps1, us1, m1⟩
            rw [hrec] at h
            simp only [Except.ok.injEq, Prod.mk.injEq] at h
            obtain ⟨rfl, rfl, rfl⟩ := h
            obtain ⟨h1, h2, h3, h4, h5⟩ := ih (m.id :: matched) ps1 us1 m1 hrec
            obtain ⟨hmm, hmn⟩ := findTimeTitleMatch_mem hf
            refine ⟨?_, ?_, ?_, ?_, ?_⟩
            · rw [h1]
              simp [List.append_assoc]
            · simp only [List.map_cons, List.cons_append]
              exact h2.cons e
            · intro p hp
              rcases List.mem_cons.mp hp with rfl | hp2
              · exact hmm
              · exact h3 p hp2
            · intro hnd
              exact h4 (List.nodup_cons.mpr ⟨hmn, hnd⟩)
            · intro p hp
              rcases List.mem_cons.mp hp with rfl | hp2
              · simp [hc]
              · exact h5 p hp2

lemma matchAiGo_spec (enabled : Bool)
    (complete : Meeting → List CalendarEvent → Except String String) :
    ∀ (ms : List Meeting) (evs : List CalendarEvent)
      (ps : List (CalendarEvent × Meeting)) (us : List CalendarEvent) (ums : List Meeting),
      matchAiGo enabled complete ms evs = (ps, us, ums) →
      evs.Perm (ps.map Prod.fst ++ us) ∧ (ps.map Prod.snd).Sublist ms := by
  intro ms
  induction ms with
  | nil =>
    intro evs ps us ums h
    unfold matchAiGo at h
    simp only [Prod.mk.injEq] at h
    obtain ⟨rfl, rfl, rfl⟩ := h
    simp
  | cons m rest ih =>
    intro evs ps us ums h
    unfold matchAiGo at h
    cases hm : match_meeting_to_event enabled complete m evs with
    | some e =>
      rw [hm] at h
      dsimp only at h
      rcases hrec : matchAiGo enabled complete rest (evs.erase e) with ⟨ps1, us1, ums1⟩
      rw [hrec] at h
      simp only [Prod.mk.injEq] at h
      obtain ⟨rfl, rfl, rfl⟩ := h
      obtain ⟨hperm, hsub⟩ := ih (evs.erase e) ps1 us1 ums1 hrec
      have he : e ∈ evs := match_meeting_to_event_mem hm
      constructor
      · simp only [List.map_cons, List.cons_append]
        exact (List.perm_cons_erase he).trans (hperm.cons e)
      · simp only [List.map_cons]
        exact hsub.cons₂ m
    | none =>
      rw [hm] at h
      rcases hrec : matchAiGo enabled complete rest evs with ⟨ps1, us1, ums1⟩
      rw [hrec] at h
      simp only [Prod.mk.injEq] at h
      obtain ⟨rfl, rfl, rfl⟩ := h
      obtain ⟨hperm, hsub⟩ := ih evs ps1 us1 ums1 hrec
      exact ⟨hperm, hsub.cons m⟩

lemma matchTTGo_total (meetings : List Meeting) :
    ∀ (events : List CalendarEvent) (matched : List String),
      (∀ e ∈ events, eventStartOk e = true) →
      ∃ r, matchTTGo meetings events matched = .ok r := by
  intro events
  induction events with
  | nil => exact fun matched _ => ⟨_, rfl⟩
  | cons e rest ih =>
    intro matched hp
    have he : eventStartOk e = true := hp e (List.mem_cons_self e rest)
    have hrest : ∀ x ∈ rest, eventStartOk x = true :=
      fun x hx => hp x (List.mem_cons_of_mem _ hx)
    unfold matchTTGo
    cases hc : pyStrOpt e.startDateTime with
    | none =>
      obtain ⟨r, hr⟩ := ih matched hrest
      rcases r with ⟨ps1, us1, m1⟩
      rw [hr]
      exact ⟨_, rfl⟩
    | some s =>
      have hiso : (fromisoformat (pyReplace s 'Z' "+00:00")).isSome := by
        unfold eventStartOk at he
        rw [hc] at he
        exact he
      obtain ⟨t, ht⟩ := Option.isSome_iff_exists.mp hiso
      dsimp only
      rw [ht]
      dsimp only
      cases hf : findTimeTitleMatch (e.summary.getD "NO_TITLE") t matched meetings with
      | none =>
        obtain ⟨r, hr⟩ := ih matched hrest
        rcases r with ⟨ps1, us1, m1⟩
        rw [hr]
        exact ⟨_, rfl⟩
      | some m =>
        obtain ⟨r, hr⟩ := ih (m.id :: matched) hrest
        rcases r with ⟨ps1, us1, m1⟩
        dsimp only
        rw [hr]
        exact ⟨_, rfl⟩

lemma match_by_conference_id_spec (events : List CalendarEvent) (meetings : List Meeting)
    (s1 : List (CalendarEvent × Meeting)) (ue1 : List CalendarEvent) (um1 : List Meeting)
    (h : match_by_conference_id events meetings = (s1, ue1, um1)) :
    ∃ m0, matchConfGo meetings events [] = (s1, ue1, m0) ∧
      um1 = meetings.filter (fun m => !(m0.contains m.id)) := by
  unfold match_by_conference_id at h
  rcases hgo : matchConfGo meetings events [] with ⟨ps0, us0, m0⟩
  rw [hgo] at h
  simp only [Prod.mk.injEq] at h
  obtain ⟨rfl, rfl, rfl⟩ := h
  exact ⟨m0, rfl, rfl⟩

lemma match_by_time_and_title_spec (events : List CalendarEvent) (meetings : List Meeting)
    (ps : List (CalendarEvent × Meeting)) (us : List CalendarEvent) (um : List Meeting)
    (h : match_by_time_and_title events meetings = .ok (ps, us, um)) :
    ∃ mz, matchTTGo meetings events [] = .ok (ps, us, mz) ∧
      um = meetings.filter (fun m => !(mz.contains m.id)) := by
  unfold match_by_time_and_title at h
  cases hgo : matchTTGo meetings events [] with
  | error err => rw [hgo] at h; exact absurd h (by simp)
  | ok r =>
    rcases r with ⟨ps0, us0, m0⟩
    rw [hgo] at h
    simp only [Except.ok.injEq, Prod.mk.injEq] at h
    obtain ⟨rfl, rfl, rfl⟩ := h
    exact ⟨m0, rfl, rfl⟩

lemma match_by_time_and_title_total (events : List CalendarEvent) (meetings : List Meeting)
    (hp : ∀ e ∈ events, eventStartOk e = true) :
    ∃ r, match_by_time_and_title events meetings = .ok r := by
  obtain ⟨⟨ps, us, mz⟩, h⟩ := matchTTGo_total meetings events [] hp
  unfold match_by_time_and_title
  rw [h]
  exact ⟨_, rfl⟩

/-- C3 (amended): the matching engine never raises when every event's
present, non-empty `start.dateTime` string parses as a timestamp, and an
event whose start string is absent/empty is excluded from stage 2 only:
it appears in no stage-2 pair and flows into stage 2's unmatched-events
output (which is the stage-3 candidate pool; stage 1, which runs first,
never reads start times).  The unamended claim fails on a present but
unparsable start string, which makes stage 2 raise `ValueError`. -/
theorem c3_match_total_amended (enabled : Bool)
    (complete : Meeting → List CalendarEvent → Except String String)
    (events : List CalendarEvent) (meetings : List Meeting) (forceAi : Bool)
    (hp : ∀ e ∈ events, eventStartOk e = true) :
    (∃ pairs, match_events_and_meetings enabled complete events meetings forceAi = .ok pairs)
    ∧ (∀ ps us um, match_by_time_and_title events meetings = .ok (ps, us, um) →
        ∀ e ∈ events, pyStrOpt e.startDateTime = none →
          (∀ p ∈ ps, p.1 ≠ e) ∧ e ∈ us) := by
  constructor
  · cases forceAi with
    | true =>
      unfold match_events_and_meetings
      rw [if_pos rfl]
      by_cases hc : events ≠ [] ∧ meetings ≠ []
      · rw [if_pos hc]; exact ⟨_, rfl⟩
      · rw [if_neg hc]; exact ⟨_, rfl⟩
    | false =>
      unfold match_events_and_meetings
      rw [if_neg (by simp)]
      rcases hS1 : match_by_conference_id events meetings with ⟨s1, ue1, um1⟩
      dsimp only
      obtain ⟨m0, hgo0, hum⟩ := match_by_conference_id_spec events meetings s1 ue1 um1 hS1
      obtain ⟨_, hperm0, _, _⟩ := matchConfGo_spec meetings events [] s1 ue1 m0 hgo0
      have hue1 : ∀ e ∈ ue1, eventStartOk e = true := by
        intro e he
        exact hp e (hperm0.symm.subset (List.mem_append_right _ he))
      obtain ⟨⟨ps2, us2, um2⟩, hTT⟩ := match_by_time_and_title_total ue1 um1 hue1
      rw [hTT]
      dsimp only
      by_cases hcond : us2 ≠ [] ∧ um2 ≠ []
      · rw [if_pos hcond]; exact ⟨_, rfl⟩
      · rw [if_neg hcond]; exact ⟨_, rfl⟩
  · intro ps us um hTT e he hnone
    obtain ⟨mz, hgo, _⟩ := match_by_time_and_title_spec events meetings ps us um hTT
    obtain ⟨_, hperm, _, _, hstart⟩ := matchTTGo_spec meetings events [] ps us mz hgo
    have hne : ∀ p ∈ ps, p.1 ≠ e := by
      intro p hpmem heq
      apply hstart p hpmem
      rw [heq]
      exact hnone
    refine ⟨hne, ?_⟩
    have hmem : e ∈ ps.map Prod.fst ++ us := hperm.subset he
    rcases List.mem_append.mp hmem with hl | hr
    · obtain ⟨p, hpm, hpe⟩ := List.mem_map.mp hl
      exact absurd hpe (hne p hpm)
    · exact hr

theorem c3_match_total_amended_witness :
    ∃ pairs, match_events_and_meetings false svcBoom [evMissingStart] [mStandup] false
      = .ok pairs :=
  (c3_match_total_amended false svcBoom [evMissingStart] [mStandup] false (by decide)).1

lemma combined_nodup
    (meetings : List Meeting) (events : List CalendarEvent)
    (s1 s2 s3 : List (CalendarEvent × Meeting))
    (ue1 us2 us3 : List CalendarEvent)
    (m0 m2 : List String) (um1 um2 : List Meeting)
    (hE : (events.map CalendarEvent.id).Nodup)
    (hM : (meetings.map Meeting.id).Nodup)
    (hm0 : m0 = (s1.map (fun p => p.2.id)).reverse ++ [])
    (hperm0 : events.Perm (s1.map Prod.fst ++ ue1))
    (hnd0 : m0.Nodup)
    (hum1 : um1 = meetings.filter (fun m => !(m0.contains m.id)))
    (hm2 : m2 = (s2.map (fun p => p.2.id)).reverse ++ [])
    (hperm2 : ue1.Perm (s2.map Prod.fst ++ us2))
    (hmem2 : ∀ p ∈ s2, p.2 ∈ um1)
    (hnd2 : m2.Nodup)
    (hum2 : um2 = um1.filter (fun m => !(m2.contains m.id)))
    (hperm3 : us2.Perm (s3.map Prod.fst ++ us3))
    (hsub3 : (s3.map Prod.snd).Sublist um2) :
    ((s1 ++ s2 ++ s3).map (fun p => p.1.id)).Nodup
    ∧ ((s1 ++ s2 ++ s3).map (fun p => p.2.id)).Nodup := by
  constructor
  · have hbig : events.Perm
        (s1.map Prod.fst ++ (s2.map Prod.fst ++ (s3.map Prod.fst ++ us3))) :=
      hperm0.trans ((hperm2.trans (hperm3.append_left _)).append_left _)
    have hNE := (hbig.map CalendarEvent.id).nodup hE
    have hNE2 : (((s1 ++ s2 ++ s3).map (fun p => p.1.id))
        ++ us3.map CalendarEvent.id).Nodup := by
      simpa [List.map_append, List.map_map, Function.comp, List.append_assoc] using hNE
    exact hNE2.of_append_left
  · have hnodup0 : (s1.map (fun p => p.2.id)).Nodup := by
      rw [hm0] at hnd0
      simpa [List.nodup_reverse] using hnd0
    have hnodup2 : (s2.map (fun p => p.2.id)).Nodup := by
      rw [hm2] at hnd2
      simpa [List.nodup_reverse] using hnd2
    have hmemm0 : ∀ x, x ∈ m0 ↔ x ∈ s1.map (fun p => p.2.id) := by
      intro x
      rw [hm0]
      simp
    have hmemm2 : ∀ x, x ∈ m2 ↔ x ∈ s2.map (fun p => p.2.id) := by
      intro x
      rw [hm2]
      simp
    have humMem1 : ∀ m : Meeting, m ∈ um1 → m ∈ meetings ∧ m.id ∉ m0 := by
      intro m hm
      rw [hum1] at hm
      obtain ⟨h1, h2⟩ := List.mem_filter.mp hm
      refine ⟨h1, ?_⟩
      simpa using h2
    have humMem2 : ∀ m : Meeting, m ∈ um2 → m ∈ um1 ∧ m.id ∉ m2 := by
      intro m hm
      rw [hum2] at hm
      obtain ⟨h1, h2⟩ := List.mem_filter.mp hm
      refine ⟨h1, ?_⟩
      simpa using h2
    have hsubMem3 : ∀ p ∈ s3, p.2 ∈ um2 := by
      intro p hp
      exact hsub3.subset (List.mem_map_of_mem Prod.snd hp)
    have hnodup3 : (s3.map (fun p => p.2.id)).Nodup := by
      have humsub : um2.Sublist meetings := by
        rw [hum2, hum1]
        exact (List.filter_sublist _).trans (List.filter_sublist _)
      have hum2nd : (um2.map Meeting.id).Nodup := hM.sublist (humsub.map Meeting.id)
      have hid : ((s3.map Prod.snd).map Meeting.id).Nodup :=
        hum2nd.sublist (hsub3.map Meeting.id)
      simpa [List.map_map, Function.comp] using hid
    have disj23 : (s2.map (fun p => p.2.id)).Disjoint (s3.map (fun p => p.2.id)) := by
      intro a ha hb
      obtain ⟨p, hp, rfl⟩ := List.mem_map.mp hb
      have h1 : p.2.id ∈ m2 := (hmemm2 p.2.id).mpr ha
      exact (humMem2 p.2 (hsubMem3 p hp)).2 h1
    have disj0 : (s1.map (fun p => p.2.id)).Disjoint
        (s2.map (fun p => p.2.id) ++ s3.map (fun p => p.2.id)) := by
      intro a ha hb
      have ha0 : a ∈ m0 := (hmemm0 a).mpr ha
      rcases List.mem_append.mp hb with hb2 | hb3
      · obtain ⟨p, hp, rfl⟩ := List.mem_map.mp hb2
        exact (humMem1 p.2 (hmem2 p hp)).2 ha0
      · obtain ⟨p, hp, rfl⟩ := List.mem_map.mp hb3
        exact (humMem1 p.2 (humMem2 p.2 (hsubMem3 p hp)).1).2 ha0
    have hfin : (s1.map (fun p => p.2.id)
        ++ (s2.map (fun p => p.2.id) ++ s3.map (fun p => p.2.id))).Nodup :=
      List.nodup_append.mpr ⟨hnodup0,
        List.nodup_append.mpr ⟨hnodup2, hnodup3, disj23⟩, disj0⟩
    simpa [List.map_append, List.append_assoc] using hfin

/-- C4: bijective partial matching — when event ids are pairwise distinct
and recording ids are pairwise distinct, no event id and no recording id
appears in more than one pair of the list returned by
`match_events_and_meetings`, across all three stages combined, for any
`force_ai` flag and any behaviour of the completion service. -/
theorem c4_bijective_matching (enabled : Bool)
    (complete : Meeting → List CalendarEvent → Except String String)
    (events : List CalendarEvent) (meetings : List Meeting) (forceAi : Bool)
    (pairs : List (CalendarEvent × Meeting))
    (hE : (events.map CalendarEvent.id).Nodup)
    (hM : (meetings.map Meeting.id).Nodup)
    (hok : match_events_and_meetings enabled complete events meetings forceAi = .ok pairs) :
    (pairs.map (fun p => p.1.id)).Nodup ∧ (pairs.map (fun p => p.2.id)).Nodup := by
  cases forceAi with
  | true =>
    unfold match_events_and_meetings at hok
    rw [if_pos rfl] at hok
    by_cases hcond : events ≠ [] ∧ meetings ≠ []
    · rw [if_pos hcond] at hok
      rcases hA : matchAiGo enabled complete meetings events with ⟨s3, us3, ums3⟩
      rw [hA] at hok
      obtain rfl : s3 = pairs := by simpa using hok
      obtain ⟨hperm3, hsub3⟩ := matchAiGo_spec enabled complete meetings events s3 us3 ums3 hA
      have := combined_nodup meetings events [] [] s3 events events us3 [] [] meetings meetings
        hE hM (by simp) (by simp) (by simp) (by simp) (by simp) (by simp)
        (by simp) (by simp) (by simp) hperm3 (by simpa using hsub3)
      simpa using this
    · rw [if_neg hcond] at hok
      obtain rfl : ([] : List (CalendarEvent × Meeting)) = pairs := by simpa using hok
      simp
  | false =>
    unfold match_events_and_meetings at hok
    rw [if_neg (by simp)] at hok
    rcases hS1 : match_by_conference_id events meetings with ⟨s1, ue1, um1⟩
    rw [hS1] at hok
    dsimp only at hok
    obtain ⟨m0, hgo0, hum1⟩ := match_by_conference_id_spec events meetings s1 ue1 um1 hS1
    obtain ⟨hm0, hperm0, _, hnd0f⟩ := matchConfGo_spec meetings events [] s1 ue1 m0 hgo0
    have hnd0 : m0.Nodup := hnd0f List.nodup_nil
    cases hTT : match_by_time_and_title ue1 um1 with
    | error err => rw [hTT] at hok; exact absurd hok (by simp)
    | ok r2 =>
      rcases r2 with ⟨s2, us2, um2⟩
      rw [hTT] at hok
      dsimp only at hok
      obtain ⟨m2, hgo2, hum2⟩ := match_by_time_and_title_spec ue1 um1 s2 us2 um2 hTT
      obtain ⟨hm2, hperm2, hmem2, hnd2f, _⟩ := matchTTGo_spec um1 ue1 [] s2 us2 m2 hgo2
      have hnd2 : m2.Nodup := hnd2f List.nodup_nil
      by_cases hcond : us2 ≠ [] ∧ um2 ≠ []
      · rw [if_pos hcond] at hok
        rcases hA : matchAiGo enabled complete um2 us2 with ⟨s3, us3, ums3⟩
        rw [hA] at hok
        obtain rfl : s1 ++ s2 ++ s3 = pairs := by simpa using hok
        obtain ⟨hperm3, hsub3⟩ := matchAiGo_spec enabled complete um2 us2 s3 us3 ums3 hA
        exact combined_nodup meetings events s1 s2 s3 ue1 us2 us3 m0 m2 um1 um2
          hE hM hm0 hperm0 hnd0 hum1 hm2 hperm2 hmem2 hnd2 hum2 hperm3 hsub3
      · rw [if_neg hcond] at hok
        obtain rfl : s1 ++ s2 = pairs := by simpa using hok
        have := combined_nodup meetings events s1 s2 [] ue1 us2 us2 m0 m2 um1 um2
          hE hM hm0 hperm0 hnd0 hum1 hm2 hperm2 hmem2 hnd2 hum2 (by simp) (by simp)
        simpa using this

theorem c4_bijective_matching_witness :
    ([(evStandup, mStandup)].map (fun p => p.1.id)).Nodup
    ∧ ([(evStandup, mStandup)].map (fun p => p.2.id)).Nodup :=
  c4_bijective_matching false svcBoom [evStandup] [mStandup] false
    [(evStandup, mStandup)] (by decide) (by decide) (by rfl)


lemma findTT_eq_find (summary : String) (t : Int) (matched : List String) :
    ∀ ms : List Meeting,
      findTimeTitleMatch summary t matched ms
        = (ms.filter (fun m => !(matched.contains m.id))).find?
            (stage2Qualifies summary t) := by
  intro ms
  induction ms with
  | nil => rfl
  | cons x rest ih =>
    unfold findTimeTitleMatch
    by_cases h1 : x.id ∈ matched
    · rw [if_pos h1, List.filter_cons_of_neg (by simp [h1])]
      exact ih
    · rw [if_neg h1, List.filter_cons_of_pos (by simp [h1])]
      by_cases h2 : pyLower summary = pyLower x.name ∧ |t - x.start_time| < 300
      · rw [if_pos h2, List.find?_cons_of_pos _ (by simpa [stage2Qualifies] using h2)]
      · rw [if_neg h2, List.find?_cons_of_neg _ (by simp [stage2Qualifies, h2])]
        exact ih

lemma filter_erase_step (meetings : List Meeting) (matched : List String) (m : Meeting)
    (hM : (meetings.map Meeting.id).Nodup)
    (hm : m ∈ meetings.filter (fun x => !(matched.contains x.id))) :
    meetings.filter (fun x => !((m.id :: matched).contains x.id))
      = (meetings.filter (fun x => !(matched.contains x.id))).erase m := by
  have hmem : m ∈ meetings := (List.mem_filter.mp hm).1
  have hpoolsub : (meetings.filter (fun x => !(matched.contains x.id))).Sublist meetings :=
    List.filter_sublist meetings
  have hpoolid : ((meetings.filter (fun x => !(matched.contains x.id))).map Meeting.id).Nodup :=
    hM.sublist (hpoolsub.map Meeting.id)
  have hpoolnd : (meetings.filter (fun x => !(matched.contains x.id))).Nodup :=
    hpoolid.of_map
  rw [hpoolnd.erase_eq_filter, List.filter_filter]
  apply List.filter_congr
  intro x hx
  by_cases hxm : x.id = m.id
  · have hxe : x = m := List.inj_on_of_nodup_map hM hx hmem hxm
    subst hxe
    simp [List.contains_cons]
  · have hne : x ≠ m := fun h => hxm (by rw [h])
    simp [List.contains_cons, hxm, hne]

lemma matchTT_refines_spec (meetings : List Meeting)
    (hM : (meetings.map Meeting.id).Nodup) :
    ∀ (events : List CalendarEvent) (matched : List String),
      (∀ e ∈ events, eventStartOk e = true) →
      ∃ ps us mz, matchTTGo meetings events matched = .ok (ps, us, mz)
        ∧ stage2SpecGo events (meetings.filter (fun m => !(matched.contains m.id)))
            = (ps, us, meetings.filter (fun m => !(mz.contains m.id))) := by
  intro events
  induction events with
  | nil =>
    intro matched _
    exact ⟨[], [], matched, rfl, rfl⟩
  | cons e rest ih =>
    intro matched hp
    have he := hp e (List.mem_cons_self e rest)
    have hrest : ∀ x ∈ rest, eventStartOk x = true :=
      fun x hx => hp x (List.mem_cons_of_mem _ hx)
    cases hc : pyStrOpt e.startDateTime with
    | none =>
      obtain ⟨ps, us, mz, hgo, hspec⟩ := ih matched hrest
      refine ⟨ps, e :: us, mz, ?_, ?_⟩
      · unfold matchTTGo
        dsimp only
        rw [hc, hgo]
      · have het : eventStartTime e = none := by
          unfold eventStartTime
          rw [hc]
          rfl
        unfold stage2SpecGo
        rw [het]
        dsimp only
        rw [hspec]
    | some s =>
      have hiso : (fromisoformat (pyReplace s 'Z' "+00:00")).isSome := by
        unfold eventStartOk at he
        rw [hc] at he
        exact he
      obtain ⟨t, ht⟩ := Option.isSome_iff_exists.mp hiso
      have het : eventStartTime e = some t := by
        unfold eventStartTime
        rw [hc]
        simpa using ht
      have hfind := findTT_eq_find (e.summary.getD "NO_TITLE") t matched meetings
      cases hf : findTimeTitleMatch (e.summary.getD "NO_TITLE") t matched meetings with
      | some m =>
        have hfindeq : (meetings.filter (fun x => !(matched.contains x.id))).find?
            (stage2Qualifies (e.summary.getD "NO_TITLE") t) = some m := by
          rw [← hfind]
          exact hf
        have hmem : m ∈ meetings.filter (fun x => !(matched.contains x.id)) :=
          List.mem_of_find?_eq_some hfindeq
        obtain ⟨ps, us, mz, hgo, hspec⟩ := ih (m.id :: matched) hrest
        refine ⟨(e, m) :: ps, us, mz, ?_, ?_⟩
        · unfold matchTTGo
          dsimp only
          rw [hc]
          dsimp only
          rw [ht]
          dsimp only
          rw [hf]
          dsimp only
          rw [hgo]
        · unfold stage2SpecGo
          rw [het]
          dsimp only
          rw [hfindeq]
          dsimp only
          rw [← filter_erase_step meetings matched m hM hmem, hspec]
      | none =>
        have hfindeq : (meetings.filter (fun x => !(matched.contains x.id))).find?
            (stage2Qualifies (e.summary.getD "NO_TITLE") t) = none := by
          rw [← hfind]
          exact hf
        obtain ⟨ps, us, mz, hgo, hspec⟩ := ih matched hrest
        refine ⟨ps, e :: us, mz, ?_, ?_⟩
        · unfold matchTTGo
          dsimp only
          rw [hc]
          dsimp only
          rw [ht]
          dsimp only
          rw [hf]
          dsimp only
          rw [hgo]
        · unfold stage2SpecGo
          rw [het]
          dsimp only
          rw [hfindeq]
          dsimp only
          rw [hspec]

/-- C5: stage 2 is greedy first-fit in input order — it equals the
spec-side recursion `stage2SpecGo` that, for each event in input order,
takes the first remaining recording (in recording-list order) whose name
equals the event title case-insensitively and whose start time differs
by strictly less than five minutes, removing both from their pools; ties
go to iteration order, not to the globally minimal time delta.  Stated
for inputs whose present start strings parse (otherwise stage 2 raises,
see C3) and with pairwise-distinct recording ids (the code tracks the
pool by id, the spec by element). -/
theorem c5_stage2_greedy_first_fit (events : List CalendarEvent) (meetings : List Meeting)
    (hp : ∀ e ∈ events, eventStartOk e = true)
    (hM : (meetings.map Meeting.id).Nodup) :
    match_by_time_and_title events meetings = .ok (stage2SpecGo events meetings) := by
  obtain ⟨ps, us, mz, hgo, hspec⟩ := matchTT_refines_spec meetings hM events [] hp
  unfold match_by_time_and_title
  rw [hgo]
  dsimp only
  have h0 : meetings.filter (fun m => !(([] : List String).contains m.id)) = meetings := by
    simp
  rw [h0] at hspec
  rw [hspec]

theorem c5_stage2_greedy_first_fit_witness :
    match_by_time_and_title [evA, evB] [mSync] = .ok ([(evA, mSync)], [evB], []) :=
  c5_stage2_greedy_first_fit [evA, evB] [mSync] (by decide) (by decide)
